import Mathlib

/-!
Shallow embedding of `src/github_pr_notifier.py` (GitHubPRMonitor).

Timestamps are modelled as `Int` (the code compares parsed `datetime`
values, a totally ordered time axis).  A raw JSON record is modelled with
`Option` fields: a `none` field accessed by the code raises `KeyError`,
which is caught only by the `except` clause wrapping the whole of
`get_pr_comments`, so processing of the remaining records of that subject
is abandoned while records already appended to `events` are kept.
External effects (the `gh` subprocess calls, the blink(1) device) enter
as explicit inputs: an `Except Unit _` value stands for "the call
succeeded with this payload / raised a caught exception".
-/

namespace GithubPRNotifier

/-- `PREvent` dataclass: a classified PR event (comment or review). -/
structure PREvent where
  pr_number : Nat
  event_type : String
  author : String
  created_at : Int
  body : String
deriving Repr, DecidableEq

/-- one element of the `comments` JSON array; `none` = key absent (KeyError on access). -/
structure RawComment where
  id : Option String
  authorLogin : Option String
  createdAt : Option Int
  body : Option String
deriving Repr, DecidableEq

/-- one element of the `reviews` JSON array; `body` is read with `.get` (no KeyError). -/
structure RawReview where
  id : Option String
  authorLogin : Option String
  submittedAt : Option Int
  body : Option String
  state : Option String
deriving Repr, DecidableEq

/-- the monitor's configuration relevant to classification. -/
structure Config where
  username : String
  test_mode : Bool
deriving Repr, DecidableEq

/-- `self.processed_events`: the dedup ledger (an in-memory set, modelled as a list). -/
abbrev Ledger := List String

/-- accumulator of `get_pr_comments`: the ledger plus the `events` list built so far.
Each emitted event is paired with the `event_id` under which it was recorded. -/
structure Acc where
  processed : Ledger
  events : List (String × PREvent)
deriving Repr, DecidableEq

/-- `event_id = f"comment_{repo}_{pr_number}_{comment['id']}"` (line 149). -/
def commentEventId (repo : String) (pr_number : Nat) (cid : String) : String :=
  "comment_" ++ repo ++ "_" ++ toString pr_number ++ "_" ++ cid

/-- `event_id = f"review_{repo}_{pr_number}_{review['id']}"` (line 173). -/
def reviewEventId (repo : String) (pr_number : Nat) (rid : String) : String :=
  "review_" ++ repo ++ "_" ++ toString pr_number ++ "_" ++ rid

/-- body of the comment event (line 156): first 100 characters plus a marker when
longer than 100 characters, unchanged otherwise. -/
def commentExcerpt (b : String) : String :=
  if b.length > 100 then b.take 100 ++ "..." else b

/-- `author_filter = True if self.test_mode else record['author']['login'] != self.username`
(lines 147 and 171): in test mode the author key is not read at all; otherwise
a missing author is a `KeyError`. -/
def authorFilter (cfg : Config) (login : Option String) : Except Unit Bool :=
  if cfg.test_mode then .ok true
  else match login with
    | none => .error ()
    | some l => .ok (l ≠ cfg.username)

/-- loop body of the comments loop (lines 144-158).  `.error ()` models a
`KeyError` escaping to the function-level `except`.  Field accesses happen in
source order: `createdAt` (145), `author.login` (147, skipped in test mode),
then under the guard `id` (149), and inside the append `author.login` (154)
and `body` (156). -/
def processComment (cfg : Config) (cutoff : Int) (repo : String) (pr_number : Nat)
    (acc : Acc) (c : RawComment) : Except Unit Acc :=
  match c.createdAt with
  | none => .error ()
  | some created_at =>
    match authorFilter cfg c.authorLogin with
    | .error _ => .error ()
    | .ok author_filter =>
      if created_at > cutoff ∧ author_filter then
        match c.id with
        | none => .error ()
        | some cid =>
          if commentEventId repo pr_number cid ∈ acc.processed then .ok acc
          else
            match c.authorLogin with
            | none => .error ()
            | some login =>
              match c.body with
              | none => .error ()
              | some b =>
                .ok { processed := commentEventId repo pr_number cid :: acc.processed,
                      events := acc.events ++ [(commentEventId repo pr_number cid,
                        { pr_number := pr_number, event_type := "comment",
                          author := login, created_at := created_at,
                          body := commentExcerpt b })] }
      else .ok acc

/-- loop body of the reviews loop (lines 166-189).  `state` is read first
(line 168); unrecognized states fall through with no effect.  The review body
is read with `review.get('body', '')` (line 187): never a `KeyError`. -/
def processReview (cfg : Config) (cutoff : Int) (repo : String) (pr_number : Nat)
    (acc : Acc) (r : RawReview) : Except Unit Acc :=
  match r.state with
  | none => .error ()
  | some state =>
    if state = "APPROVED" ∨ state = "CHANGES_REQUESTED" ∨ state = "COMMENTED" then
      match r.submittedAt with
      | none => .error ()
      | some submitted_at =>
        match authorFilter cfg r.authorLogin with
        | .error _ => .error ()
        | .ok author_filter =>
          if submitted_at > cutoff ∧ author_filter then
            match r.id with
            | none => .error ()
            | some rid =>
              if reviewEventId repo pr_number rid ∈ acc.processed then .ok acc
              else
                match r.authorLogin with
                | none => .error ()
                | some login =>
                  .ok { processed := reviewEventId repo pr_number rid :: acc.processed,
                        events := acc.events ++ [(reviewEventId repo pr_number rid,
                          { pr_number := pr_number,
                            event_type :=
                              if state = "APPROVED" then "approved"
                              else if state = "CHANGES_REQUESTED" then "changes_requested"
                              else "commented",
                            author := login, created_at := submitted_at,
                            body := r.body.getD "" })] }
          else .ok acc
    else .ok acc

/-- runs a loop body over a batch; a raised (then caught) exception abandons the
remaining records but keeps the accumulator built so far.  The boolean reports
whether the batch completed without an exception. -/
def foldAbort {α : Type} (f : Acc → α → Except Unit Acc) : Acc → List α → Acc × Bool
  | acc, [] => (acc, true)
  | acc, x :: xs =>
    match f acc x with
    | .ok acc2 => foldAbort f acc2 xs
    | .error _ => (acc, false)

/-- outcome of the two `gh pr view` calls for one subject.  `.error ()` is a
`CalledProcessError`/`JSONDecodeError`; `.ok none` is a payload without the
`comments` (resp. `reviews`) key; `.ok (some l)` is the parsed array. -/
structure FetchInput where
  comments : Except Unit (Option (List RawComment))
  reviews : Except Unit (Option (List RawReview))

/-- `GitHubPRMonitor.get_pr_comments` (lines 129-194): comments pass, then
reviews pass, the whole body inside one `try`; on any caught exception the
events accumulated so far are still returned (the final `return events` is
outside the `try`), and ledger insertions made so far persist. -/
def get_pr_comments (cfg : Config) (cutoff : Int) (processed : Ledger)
    (repo : String) (pr_number : Nat) (fin : FetchInput) : Acc :=
  let acc0 : Acc := { processed := processed, events := [] }
  match fin.comments with
  | .error _ => acc0
  | .ok copt =>
    let step1 :=
      match copt with
      | none => (acc0, true)
      | some cs => foldAbort (processComment cfg cutoff repo pr_number) acc0 cs
    if step1.2 then
      match fin.reviews with
      | .error _ => step1.1
      | .ok ropt =>
        match ropt with
        | none => step1.1
        | some rs => (foldAbort (processReview cfg cutoff repo pr_number) step1.1 rs).1
    else step1.1

/-- a subject as produced by `get_user_prs` (title/url omitted: never read by the core). -/
structure PRRef where
  repository : String
  number : Nat
deriving Repr, DecidableEq

/-- the monitor's mutable state: dedup ledger, watermark, device handle
(`blink1 = true` iff `self.blink1 is not None`). -/
structure MonState where
  processed : Ledger
  last_check : Int
  blink1 : Bool
deriving Repr, DecidableEq

/-- external inputs of one poll cycle. -/
structure CycleInput where
  prsFetch : Except Unit (List PRRef)
  fetches : PRRef → FetchInput
  flashFails : PREvent → Bool
  now : Int

/-- `GitHubPRMonitor.get_user_prs` (lines 99-127): a failed search degrades to
an empty subject list. -/
def get_user_prs (inp : CycleInput) : List PRRef :=
  match inp.prsFetch with
  | .error _ => []
  | .ok prs => prs

/-- `GitHubPRMonitor.flash_for_event` (lines 196-224): with no device the flash
is skipped; otherwise the pattern for the event type is played.  The result is
the pattern string handed to `play_pattern`, or `none` when nothing is played. -/
def flash_for_event (blink1 : Bool) (e : PREvent) : Option String :=
  if blink1 then
    if e.event_type = "comment" then some "3, #0000FF,0.3,0, #000000,0.3,0"
    else if e.event_type = "approved" then some "5, #00FF00,0.5,0, #000000,0.2,0"
    else if e.event_type = "changes_requested" then some "2, #FF0000,1.0,0, #000000,0.5,0"
    else if e.event_type = "commented" then some "3, #FFFF00,0.3,0, #000000,0.3,0"
    else none
  else none

/-- result of one poll cycle: new state, the events found (with their ledger
identities), and the notifier invocations (identity, pattern, and whether
`play_pattern` ran without raising — a raise is caught on line 223 and
changes nothing else). -/
structure CycleOutput where
  state : MonState
  new_events : List (String × PREvent)
  flashes : List (String × String × Bool)
deriving Repr

/-- body of the `for pr in prs` loop (lines 234-239): fetch one subject's
events against the ledger threaded so far and extend `new_events`. -/
def perPRStep (cfg : Config) (cutoff : Int) (fetches : PRRef → FetchInput)
    (acc : Ledger × List (String × PREvent)) (pr : PRRef) :
    Ledger × List (String × PREvent) :=
  let r := get_pr_comments cfg cutoff acc.1 pr.repository pr.number (fetches pr)
  (r.processed, acc.2 ++ r.events)

/-- `GitHubPRMonitor.check_for_updates` (lines 226-251): discover subjects,
collect each subject's events (the ledger threads through in subject order),
flash every collected event, then set `last_check` to the current time. -/
def check_for_updates (cfg : Config) (st : MonState) (inp : CycleInput) : CycleOutput :=
  let prs := get_user_prs inp
  let collected := prs.foldl (perPRStep cfg st.last_check inp.fetches) (st.processed, [])
  let flashes := collected.2.filterMap (fun p =>
    (flash_for_event st.blink1 p.2).map (fun pat => (p.1, pat, !inp.flashFails p.2)))
  { state := { processed := collected.1, last_check := inp.now, blink1 := st.blink1 },
    new_events := collected.2,
    flashes := flashes }

/-- the monitoring loop `GitHubPRMonitor.run` (lines 253-272) over a finite
trace of cycle inputs, returning the final state and the concatenated event
and flash traces. -/
def runCycles (cfg : Config) (st : MonState) :
    List CycleInput → MonState × List (String × PREvent) × List (String × String × Bool)
  | [] => (st, [], [])
  | inp :: rest =>
    let out := check_for_updates cfg st inp
    let tl := runCycles cfg out.state rest
    (tl.1, out.new_events ++ tl.2.1, out.flashes ++ tl.2.2)

/-- the constructed monitor (`GitHubPRMonitor.__init__`, lines 58-74). -/
structure Monitor where
  username : String
  poll_interval : Nat
  test_mode : Bool
  state : MonState
deriving Repr, DecidableEq

/-- `GitHubPRMonitor.__init__` with `_init_blink1` (76-83) and `_check_gh_cli`
(85-96) inlined: a `Blink1ConnectionFailed` is caught and leaves
`self.blink1 = None`; a failing or absent `gh` CLI raises out of the
constructor with a diagnostic.  `now` is the construction time; the watermark
starts one hour (3600 s) earlier. -/
def GitHubPRMonitor_init (username : String) (poll_interval : Nat) (test_mode : Bool)
    (now : Int) (blinkConn : Except Unit Unit) (ghCli : Except String Unit) :
    Except String Monitor :=
  let blink1 :=
    match blinkConn with
    | .ok _ => true
    | .error _ => false
  match ghCli with
  | .error msg => .error msg
  | .ok _ =>
    .ok { username := username, poll_interval := poll_interval, test_mode := test_mode,
          state := { processed := [], last_check := now - 3600, blink1 := blink1 } }

/-!  Helper predicates and lemmas shared by the claim theorems. -/

/-- `s₁` is the ledger `s₀` after recording the identities of the freshly
emitted trace `evs`: the ledger only grows, the trace repeats no identity,
and every traced identity was absent before and is present after. -/
def Extends (s₀ s₁ : Ledger) (evs : List (String × PREvent)) : Prop :=
  (∀ x ∈ s₀, x ∈ s₁) ∧ ((evs.map Prod.fst).Nodup) ∧
  ∀ p ∈ evs, p.1 ∉ s₀ ∧ p.1 ∈ s₁

lemma Extends.rfl (s : Ledger) : Extends s s [] :=
  ⟨fun _ hx => hx, List.nodup_nil, by simp⟩

lemma Extends.trans {s₀ s₁ s₂ : Ledger} {e₁ e₂ : List (String × PREvent)}
    (h₁ : Extends s₀ s₁ e₁) (h₂ : Extends s₁ s₂ e₂) : Extends s₀ s₂ (e₁ ++ e₂) := by
  obtain ⟨m₁, n₁, f₁⟩ := h₁
  obtain ⟨m₂, n₂, f₂⟩ := h₂
  refine ⟨fun x hx => m₂ x (m₁ x hx), ?_, ?_⟩
  · rw [List.map_append]
    refine List.Nodup.append n₁ n₂ ?_
    intro a ha₁ ha₂
    obtain ⟨p, hp, rfl⟩ := List.mem_map.1 ha₁
    obtain ⟨q, hq, hpq⟩ := List.mem_map.1 ha₂
    exact (f₂ q hq).1 (hpq ▸ (f₁ p hp).2)
  · intro p hp
    rcases List.mem_append.1 hp with h | h
    · exact ⟨(f₁ p h).1, m₂ _ (f₁ p h).2⟩
    · exact ⟨fun hin => (f₂ p h).1 (m₁ _ hin), (f₂ p h).2⟩

lemma Extends.single {s : Ledger} {id : String} (e : PREvent) (h : id ∉ s) :
    Extends s (id :: s) [(id, e)] :=
  ⟨fun x hx => List.mem_cons_of_mem _ hx, by simp, by simp [h]⟩

/-- shape of one loop-body step: either it leaves the accumulator unchanged,
or it records one fresh identity and appends the matching event, whose
timestamp beats the cutoff. -/
def StepSpec {α : Type} (cutoff : Int) (f : Acc → α → Except Unit Acc) : Prop :=
  ∀ acc x acc', f acc x = .ok acc' →
    acc' = acc ∨ ∃ id e, id ∉ acc.processed ∧ e.created_at > cutoff ∧
      acc'.processed = id :: acc.processed ∧ acc'.events = acc.events ++ [(id, e)]

lemma processComment_step (cfg : Config) (cutoff : Int) (repo : String) (prn : Nat) :
    StepSpec cutoff (processComment cfg cutoff repo prn) := by
  intro acc c acc' h
  unfold processComment at h
  split at h
  · simp at h
  next created_at hca =>
    split at h
    · simp at h
    next author_filter haf =>
      split at h
      next hguard =>
        split at h
        · simp at h
        next cid hcid =>
          split at h
          next hmem => exact Or.inl (Except.ok.inj h).symm
          next hmem =>
            split at h
            · simp at h
            next login hlogin =>
              split at h
              · simp at h
              next b hb =>
                obtain rfl := (Except.ok.inj h).symm
                exact Or.inr ⟨commentEventId repo prn cid, _, hmem, hguard.1, rfl, rfl⟩
      next hguard => exact Or.inl (Except.ok.inj h).symm

lemma processReview_step (cfg : Config) (cutoff : Int) (repo : String) (prn : Nat) :
    StepSpec cutoff (processReview cfg cutoff repo prn) := by
  intro acc r acc' h
  unfold processReview at h
  split at h
  · simp at h
  next state hst =>
    split at h
    next hrec =>
      split at h
      · simp at h
      next submitted_at hsa =>
        split at h
        · simp at h
        next author_filter haf =>
          split at h
          next hguard =>
            split at h
            · simp at h
            next rid hrid =>
              split at h
              next hmem => exact Or.inl (Except.ok.inj h).symm
              next hmem =>
                split at h
                · simp at h
                next login hlogin =>
                  obtain rfl := (Except.ok.inj h).symm
                  exact Or.inr ⟨reviewEventId repo prn rid, _, hmem, hguard.1, rfl, rfl⟩
          next hguard => exact Or.inl (Except.ok.inj h).symm
    next hrec => exact Or.inl (Except.ok.inj h).symm

lemma foldAbort_spec {α : Type} (cutoff : Int) (f : Acc → α → Except Unit Acc)
    (hf : StepSpec cutoff f) :
    ∀ (xs : List α) (acc : Acc), ∃ tail,
      (foldAbort f acc xs).1.events = acc.events ++ tail ∧
      Extends acc.processed (foldAbort f acc xs).1.processed tail ∧
      ∀ p ∈ tail, p.2.created_at > cutoff := by
  intro xs
  induction xs with
  | nil =>
    intro acc
    exact ⟨[], by simp [foldAbort], Extends.rfl _, by simp⟩
  | cons x xs ih =>
    intro acc
    cases hfx : f acc x with
    | error u =>
      refine ⟨[], ?_, ?_, by simp⟩ <;> simp [foldAbort, hfx, Extends.rfl]
    | ok acc2 =>
      obtain ⟨tail2, he, hex, hcut⟩ := ih acc2
      rcases hf acc x acc2 hfx with rfl | ⟨id, e, hid, hecut, hproc, hev⟩
      · exact ⟨tail2, by simp [foldAbort, hfx, he], by simpa [foldAbort, hfx] using hex,
          hcut⟩
      · refine ⟨(id, e) :: tail2, ?_, ?_, ?_⟩
        · simp only [foldAbort, hfx, he, hev, List.append_assoc, List.singleton_append]
        · have h1 : Extends acc.processed acc2.processed [(id, e)] := by
            rw [hproc]; exact Extends.single e hid
          have h2 := Extends.trans h1 hex
          simpa [foldAbort, hfx] using h2
        · intro p hp
          rcases List.mem_cons.1 hp with rfl | hp
          · exact hecut
          · exact hcut p hp

lemma get_pr_comments_spec (cfg : Config) (cutoff : Int) (processed : Ledger)
    (repo : String) (prn : Nat) (fin : FetchInput) :
    Extends processed (get_pr_comments cfg cutoff processed repo prn fin).processed
      (get_pr_comments cfg cutoff processed repo prn fin).events ∧
    ∀ p ∈ (get_pr_comments cfg cutoff processed repo prn fin).events,
      p.2.created_at > cutoff := by
  unfold get_pr_comments
  cases fin.comments with
  | error u => exact ⟨Extends.rfl _, by simp⟩
  | ok copt =>
    have step1spec :
        ∀ (step1 : Acc × Bool),
          step1.1.events = ([] : List (String × PREvent)) ++ step1.1.events →
          Extends processed step1.1.processed step1.1.events →
          (∀ p ∈ step1.1.events, p.2.created_at > cutoff) →
          Extends processed
            ((if step1.2 then
                match fin.reviews with
                | .error _ => step1.1
                | .ok ropt =>
                  match ropt with
                  | none => step1.1
                  | some rs => (foldAbort (processReview cfg cutoff repo prn) step1.1 rs).1
              else step1.1) : Acc).processed
            ((if step1.2 then
                match fin.reviews with
                | .error _ => step1.1
                | .ok ropt =>
                  match ropt with
                  | none => step1.1
                  | some rs => (foldAbort (processReview cfg cutoff repo prn) step1.1 rs).1
              else step1.1) : Acc).events ∧
          ∀ p ∈ ((if step1.2 then
                match fin.reviews with
                | .error _ => step1.1
                | .ok ropt =>
                  match ropt with
                  | none => step1.1
                  | some rs => (foldAbort (processReview cfg cutoff repo prn) step1.1 rs).1
              else step1.1) : Acc).events, p.2.created_at > cutoff := by
      intro step1 _ hex hcut
      by_cases hb : step1.2 = true
      · rw [if_pos hb]
        cases fin.reviews with
        | error u => exact ⟨hex, hcut⟩
        | ok ropt =>
          cases ropt with
          | none => exact ⟨hex, hcut⟩
          | some rs =>
            obtain ⟨tail2, he2, hex2, hcut2⟩ :=
              foldAbort_spec cutoff (processReview cfg cutoff repo prn)
                (processReview_step cfg cutoff repo prn) rs step1.1
            constructor
            · rw [he2]; exact Extends.trans hex hex2
            · intro p hp
              rw [he2] at hp
              rcases List.mem_append.1 hp with hp | hp
              · exact hcut p hp
              · exact hcut2 p hp
      · rw [if_neg hb]; exact ⟨hex, hcut⟩
    cases copt with
    | none =>
      exact step1spec ({ processed := processed, events := [] }, true) (by simp)
        (Extends.rfl _) (by simp)
    | some cs =>
      obtain ⟨tail1, he1, hex1, hcut1⟩ :=
        foldAbort_spec cutoff (processComment cfg cutoff repo prn)
          (processComment_step cfg cutoff repo prn) cs { processed := processed, events := [] }
      have hev : (foldAbort (processComment cfg cutoff repo prn)
          { processed := processed, events := [] } cs).1.events = tail1 := by
        simpa using he1
      refine step1spec (foldAbort (processComment cfg cutoff repo prn)
          { processed := processed, events := [] } cs) (by simp) ?_ ?_
      · rw [hev]; exact hex1
      · rw [hev]; exact hcut1

lemma foldl_perPRStep_spec (cfg : Config) (cutoff : Int) (fetches : PRRef → FetchInput) :
    ∀ (prs : List PRRef) (s : Ledger) (evs : List (String × PREvent)),
      ∃ tail,
        (prs.foldl (perPRStep cfg cutoff fetches) (s, evs)).2 = evs ++ tail ∧
        Extends s (prs.foldl (perPRStep cfg cutoff fetches) (s, evs)).1 tail ∧
        ∀ p ∈ tail, p.2.created_at > cutoff := by
  intro prs
  induction prs with
  | nil =>
    intro s evs
    exact ⟨[], by simp, Extends.rfl _, by simp⟩
  | cons pr prs ih =>
    intro s evs
    obtain ⟨hex, hcut⟩ := get_pr_comments_spec cfg cutoff s pr.repository pr.number (fetches pr)
    obtain ⟨tail2, he2, hex2, hcut2⟩ :=
      ih (get_pr_comments cfg cutoff s pr.repository pr.number (fetches pr)).processed
        (evs ++ (get_pr_comments cfg cutoff s pr.repository pr.number (fetches pr)).events)
    have hstep : perPRStep cfg cutoff fetches (s, evs) pr =
        ((get_pr_comments cfg cutoff s pr.repository pr.number (fetches pr)).processed,
         evs ++ (get_pr_comments cfg cutoff s pr.repository pr.number (fetches pr)).events) := rfl
    refine ⟨(get_pr_comments cfg cutoff s pr.repository pr.number (fetches pr)).events ++ tail2,
      ?_, ?_, ?_⟩
    · rw [List.foldl_cons, hstep, he2, List.append_assoc]
    · rw [List.foldl_cons, hstep]
      exact Extends.trans hex hex2
    · intro p hp
      rcases List.mem_append.1 hp with hp | hp
      · exact hcut p hp
      · exact hcut2 p hp

lemma check_for_updates_spec (cfg : Config) (st : MonState) (inp : CycleInput) :
    Extends st.processed (check_for_updates cfg st inp).state.processed
      (check_for_updates cfg st inp).new_events ∧
    ∀ p ∈ (check_for_updates cfg st inp).new_events, p.2.created_at > st.last_check := by
  obtain ⟨tail, he, hex, hcut⟩ :=
    foldl_perPRStep_spec cfg st.last_check inp.fetches (get_user_prs inp) st.processed []
  have hst : (check_for_updates cfg st inp).state.processed =
      ((get_user_prs inp).foldl (perPRStep cfg st.last_check inp.fetches)
        (st.processed, [])).1 := rfl
  have hne : (check_for_updates cfg st inp).new_events =
      ((get_user_prs inp).foldl (perPRStep cfg st.last_check inp.fetches)
        (st.processed, [])).2 := rfl
  rw [List.nil_append] at he
  constructor
  · rw [hst, hne, he]; exact hex
  · rw [hne, he]; exact hcut

lemma check_flashes_eq (cfg : Config) (st : MonState) (inp : CycleInput) :
    (check_for_updates cfg st inp).flashes =
      (check_for_updates cfg st inp).new_events.filterMap
        (fun p => (flash_for_event st.blink1 p.2).map
          fun pat => (p.1, pat, !inp.flashFails p.2)) := rfl

lemma flash_fst_mem {blink : Bool} {ff : PREvent → Bool} {l : List (String × PREvent)} :
    ∀ x ∈ (l.filterMap (fun p => (flash_for_event blink p.2).map
        fun pat => (p.1, pat, !ff p.2))).map Prod.fst,
      x ∈ l.map Prod.fst := by
  intro x hx
  obtain ⟨t, ht, rfl⟩ := List.mem_map.1 hx
  obtain ⟨p, hp, hmap⟩ := List.mem_filterMap.1 ht
  cases hfl : flash_for_event blink p.2 with
  | none => rw [hfl] at hmap; simp at hmap
  | some pat =>
    rw [hfl] at hmap
    simp only [Option.map_some'] at hmap
    obtain rfl := Option.some.inj hmap
    exact List.mem_map.2 ⟨p, hp, rfl⟩

lemma flash_fst_nodup {blink : Bool} {ff : PREvent → Bool} :
    ∀ {l : List (String × PREvent)}, (l.map Prod.fst).Nodup →
      ((l.filterMap (fun p => (flash_for_event blink p.2).map
          fun pat => (p.1, pat, !ff p.2))).map Prod.fst).Nodup := by
  intro l
  induction l with
  | nil => intro _; simp
  | cons a l ih =>
    intro h
    rw [List.map_cons, List.nodup_cons] at h
    rw [List.filterMap_cons]
    cases hfl : flash_for_event blink a.2 with
    | none => simpa using ih h.2
    | some pat =>
      simp only [Option.map_some', List.map_cons, List.nodup_cons]
      exact ⟨fun hmem => h.1 (flash_fst_mem _ hmem), ih h.2⟩

lemma runCycles_spec (cfg : Config) :
    ∀ (inps : List CycleInput) (st : MonState),
      Extends st.processed (runCycles cfg st inps).1.processed (runCycles cfg st inps).2.1 ∧
      (((runCycles cfg st inps).2.2.map Prod.fst).Nodup) ∧
      (∀ t ∈ (runCycles cfg st inps).2.2, t.1 ∈ (runCycles cfg st inps).2.1.map Prod.fst) := by
  intro inps
  induction inps with
  | nil =>
    intro st
    exact ⟨Extends.rfl _, by simp [runCycles], by simp [runCycles]⟩
  | cons inp inps ih =>
    intro st
    obtain ⟨hex1, hcut1⟩ := check_for_updates_spec cfg st inp
    obtain ⟨hex2, hnd2, hmem2⟩ := ih (check_for_updates cfg st inp).state
    have hrun : runCycles cfg st (inp :: inps) =
        ((runCycles cfg (check_for_updates cfg st inp).state inps).1,
         (check_for_updates cfg st inp).new_events ++
           (runCycles cfg (check_for_updates cfg st inp).state inps).2.1,
         (check_for_updates cfg st inp).flashes ++
           (runCycles cfg (check_for_updates cfg st inp).state inps).2.2) := rfl
    rw [hrun]
    refine ⟨Extends.trans hex1 hex2, ?_, ?_⟩
    · rw [List.map_append]
      refine List.Nodup.append ?_ hnd2 ?_
      · rw [check_flashes_eq]
        exact flash_fst_nodup hex1.2.1
      · intro a ha1 ha2
        rw [check_flashes_eq] at ha1
        have h1 : a ∈ (check_for_updates cfg st inp).new_events.map Prod.fst :=
          flash_fst_mem a ha1
        obtain ⟨p, hp, hpt⟩ := List.mem_map.1 h1
        have hrec : a ∈ (check_for_updates cfg st inp).state.processed :=
          hpt ▸ (hex1.2.2 p hp).2
        obtain ⟨u, hu, hut⟩ := List.mem_map.1 ha2
        have h2 := hmem2 u hu
        obtain ⟨q, hq, hqu⟩ := List.mem_map.1 h2
        exact (hex2.2.2 q hq).1 ((hqu.trans hut) ▸ hrec)
    · intro t ht
      rw [List.map_append]
      rcases List.mem_append.1 ht with ht | ht
      · refine List.mem_append.2 (Or.inl
          (@flash_fst_mem st.blink1 inp.flashFails
            (check_for_updates cfg st inp).new_events t.1 ?_))
        rw [← check_flashes_eq]
        exact List.mem_map.2 ⟨t, ht, rfl⟩
      · exact List.mem_append.2 (Or.inr (hmem2 t ht))

lemma authorFilter_test (cfg : Config) (htm : cfg.test_mode = true) (l : Option String) :
    authorFilter cfg l = .ok true := by
  unfold authorFilter
  rw [htm]
  simp

lemma authorFilter_own (cfg : Config) (htm : cfg.test_mode = false) :
    authorFilter cfg (some cfg.username) = .ok false := by
  unfold authorFilter
  rw [htm]
  simp

lemma authorFilter_other (cfg : Config) (htm : cfg.test_mode = false) (l : String)
    (hne : l ≠ cfg.username) :
    authorFilter cfg (some l) = .ok true := by
  unfold authorFilter
  rw [htm]
  simp [hne]

lemma processComment_skip (cfg : Config) (cutoff : Int) (repo : String) (prn : Nat)
    (acc : Acc) (c : RawComment) (ca : Int) (af : Bool)
    (hca : c.createdAt = some ca) (haf : authorFilter cfg c.authorLogin = .ok af)
    (hng : ¬(ca > cutoff ∧ af = true)) :
    processComment cfg cutoff repo prn acc c = .ok acc := by
  unfold processComment
  simp only [hca, haf]
  exact if_neg hng

lemma processComment_seen (cfg : Config) (cutoff : Int) (repo : String) (prn : Nat)
    (acc : Acc) (c : RawComment) (ca : Int) (cid : String)
    (hca : c.createdAt = some ca) (haf : authorFilter cfg c.authorLogin = .ok true)
    (hcut : ca > cutoff) (hid : c.id = some cid)
    (hmem : commentEventId repo prn cid ∈ acc.processed) :
    processComment cfg cutoff repo prn acc c = .ok acc := by
  unfold processComment
  simp only [hca, haf, hid, and_true]
  rw [if_pos hcut, if_pos hmem]

lemma processComment_emit (cfg : Config) (cutoff : Int) (repo : String) (prn : Nat)
    (acc : Acc) (c : RawComment) (ca : Int) (cid login b : String)
    (hca : c.createdAt = some ca) (haf : authorFilter cfg c.authorLogin = .ok true)
    (hcut : ca > cutoff) (hid : c.id = some cid)
    (hal : c.authorLogin = some login) (hb : c.body = some b)
    (hmem : commentEventId repo prn cid ∉ acc.processed) :
    processComment cfg cutoff repo prn acc c =
      .ok { processed := commentEventId repo prn cid :: acc.processed,
            events := acc.events ++ [(commentEventId repo prn cid,
              { pr_number := prn, event_type := "comment", author := login,
                created_at := ca, body := commentExcerpt b })] } := by
  unfold processComment
  simp only [hca, haf, hid, and_true]
  rw [if_pos hcut, if_neg hmem]
  simp only [hal, hb]

lemma processReview_skip_state (cfg : Config) (cutoff : Int) (repo : String) (prn : Nat)
    (acc : Acc) (r : RawReview) (s : String)
    (hst : r.state = some s)
    (hrec : ¬(s = "APPROVED" ∨ s = "CHANGES_REQUESTED" ∨ s = "COMMENTED")) :
    processReview cfg cutoff repo prn acc r = .ok acc := by
  unfold processReview
  simp only [hst]
  exact if_neg hrec

lemma processReview_skip (cfg : Config) (cutoff : Int) (repo : String) (prn : Nat)
    (acc : Acc) (r : RawReview) (s : String) (sa : Int) (af : Bool)
    (hst : r.state = some s)
    (hrec : s = "APPROVED" ∨ s = "CHANGES_REQUESTED" ∨ s = "COMMENTED")
    (hsa : r.submittedAt = some sa) (haf : authorFilter cfg r.authorLogin = .ok af)
    (hng : ¬(sa > cutoff ∧ af = true)) :
    processReview cfg cutoff repo prn acc r = .ok acc := by
  unfold processReview
  simp only [hst, hsa, haf]
  rw [if_pos hrec]
  exact if_neg hng

lemma processReview_seen (cfg : Config) (cutoff : Int) (repo : String) (prn : Nat)
    (acc : Acc) (r : RawReview) (s : String) (sa : Int) (rid : String)
    (hst : r.state = some s)
    (hrec : s = "APPROVED" ∨ s = "CHANGES_REQUESTED" ∨ s = "COMMENTED")
    (hsa : r.submittedAt = some sa) (haf : authorFilter cfg r.authorLogin = .ok true)
    (hcut : sa > cutoff) (hid : r.id = some rid)
    (hmem : reviewEventId repo prn rid ∈ acc.processed) :
    processReview cfg cutoff repo prn acc r = .ok acc := by
  unfold processReview
  simp only [hst, hsa, haf, hid, and_true]
  rw [if_pos hrec, if_pos hcut, if_pos hmem]

lemma processReview_emit (cfg : Config) (cutoff : Int) (repo : String) (prn : Nat)
    (acc : Acc) (r : RawReview) (s : String) (sa : Int) (rid login : String)
    (hst : r.state = some s)
    (hrec : s = "APPROVED" ∨ s = "CHANGES_REQUESTED" ∨ s = "COMMENTED")
    (hsa : r.submittedAt = some sa) (haf : authorFilter cfg r.authorLogin = .ok true)
    (hcut : sa > cutoff) (hid : r.id = some rid)
    (hal : r.authorLogin = some login)
    (hmem : reviewEventId repo prn rid ∉ acc.processed) :
    processReview cfg cutoff repo prn acc r =
      .ok { processed := reviewEventId repo prn rid :: acc.processed,
            events := acc.events ++ [(reviewEventId repo prn rid,
              { pr_number := prn,
                event_type :=
                  if s = "APPROVED" then "approved"
                  else if s = "CHANGES_REQUESTED" then "changes_requested"
                  else "commented",
                author := login, created_at := sa,
                body := r.body.getD "" })] } := by
  unfold processReview
  simp only [hst, hsa, haf, hid, and_true]
  rw [if_pos hrec, if_pos hcut, if_neg hmem]
  simp only [hal]

lemma processComment_own (cfg : Config) (cutoff : Int) (repo : String) (prn : Nat)
    (acc : Acc) (c : RawComment) (acc' : Acc)
    (htm : cfg.test_mode = false) (hal : c.authorLogin = some cfg.username)
    (h : processComment cfg cutoff repo prn acc c = .ok acc') : acc' = acc := by
  have haf : authorFilter cfg c.authorLogin = .ok false := by
    rw [hal]; exact authorFilter_own cfg htm
  unfold processComment at h
  split at h
  · simp at h
  next created_at hca =>
    split at h
    · simp at h
    next author_filter haf2 =>
      have hfalse : author_filter = false := by
        rw [haf] at haf2
        exact (Except.ok.inj haf2).symm
      split at h
      next hguard => exact absurd (hfalse ▸ hguard.2) (by simp)
      next hguard => exact (Except.ok.inj h).symm

lemma processReview_own (cfg : Config) (cutoff : Int) (repo : String) (prn : Nat)
    (acc : Acc) (r : RawReview) (acc' : Acc)
    (htm : cfg.test_mode = false) (hal : r.authorLogin = some cfg.username)
    (h : processReview cfg cutoff repo prn acc r = .ok acc') : acc' = acc := by
  have haf : authorFilter cfg r.authorLogin = .ok false := by
    rw [hal]; exact authorFilter_own cfg htm
  unfold processReview at h
  split at h
  · simp at h
  next state hst =>
    split at h
    next hrec =>
      split at h
      · simp at h
      next submitted_at hsa =>
        split at h
        · simp at h
        next author_filter haf2 =>
          have hfalse : author_filter = false := by
            rw [haf] at haf2
            exact (Except.ok.inj haf2).symm
          split at h
          next hguard => exact absurd (hfalse ▸ hguard.2) (by simp)
          next hguard => exact (Except.ok.inj h).symm
    next hrec => exact (Except.ok.inj h).symm

lemma get_pr_comments_comments_error (cfg : Config) (cutoff : Int) (processed : Ledger)
    (repo : String) (prn : Nat) (fin : FetchInput) (h : fin.comments = .error ()) :
    get_pr_comments cfg cutoff processed repo prn fin =
      { processed := processed, events := [] } := by
  unfold get_pr_comments
  rw [h]

/-!  Concrete fixtures used by witnesses and counterexamples. -/

def cfgNormal : Config := { username := "bob", test_mode := false }

def cfgTest : Config := { username := "bob", test_mode := true }

def st0 : MonState := { processed := [], last_check := 0, blink1 := true }

def prA : PRRef := { repository := "o/r", number := 1 }

def prB : PRRef := { repository := "o/s", number := 2 }

def comment1 : RawComment :=
  { id := some "1", authorLogin := some "alice", createdAt := some 10, body := some "hi" }

def event1 : PREvent :=
  { pr_number := 1, event_type := "comment", author := "alice", created_at := 10, body := "hi" }

def fetchAll1 : PRRef → FetchInput := fun _ =>
  { comments := .ok (some [comment1]), reviews := .ok none }

def inp1 : CycleInput :=
  { prsFetch := .ok [prA], fetches := fetchAll1, flashFails := fun _ => false, now := 100 }

/-- Claim C1: over any finite run, the emitted event trace repeats no
identity and the notifier-invocation trace repeats no identity; the dedup
ledger only ever grows; every emitted identity was absent from the starting
ledger and is present in the final one; and within any single cycle, every
emitted identity is recorded in that cycle's end ledger and was not in the
ledger at the start of the cycle (an already-recorded identity is never
re-emitted). -/
theorem c1_at_most_once (cfg : Config) (st : MonState) (inps : List CycleInput) :
    (((runCycles cfg st inps).2.1.map Prod.fst).Nodup) ∧
    (((runCycles cfg st inps).2.2.map Prod.fst).Nodup) ∧
    (∀ x ∈ st.processed, x ∈ (runCycles cfg st inps).1.processed) ∧
    (∀ p ∈ (runCycles cfg st inps).2.1,
       p.1 ∉ st.processed ∧ p.1 ∈ (runCycles cfg st inps).1.processed) ∧
    (∀ inp : CycleInput, ∀ p ∈ (check_for_updates cfg st inp).new_events,
       p.1 ∉ st.processed ∧ p.1 ∈ (check_for_updates cfg st inp).state.processed) := by
  obtain ⟨hex, hnd, hmem⟩ := runCycles_spec cfg inps st
  refine ⟨hex.2.1, hnd, hex.1, hex.2.2, ?_⟩
  intro inp p hp
  exact (check_for_updates_spec cfg st inp).1.2.2 p hp

theorem c1_witness :
    (("comment_o/r_1_1", event1) ∈ (runCycles cfgNormal st0 [inp1]).2.1) ∧
    ("comment_o/r_1_1" ∉ st0.processed ∧
     "comment_o/r_1_1" ∈ (runCycles cfgNormal st0 [inp1]).1.processed) :=
  ⟨by decide,
   (c1_at_most_once cfgNormal st0 [inp1]).2.2.2.1 ("comment_o/r_1_1", event1) (by decide)⟩

/-- Claim C2: every event collected in a poll cycle has `occurred_at`
strictly greater than the watermark (`last_check`) in effect at the start of
the cycle, and the cycle's final state carries the watermark reassigned to
the cycle's current time (`now`), independent of everything else in the
cycle. -/
theorem c2_cutoff_correctness (cfg : Config) (st : MonState) (inp : CycleInput) :
    (∀ p ∈ (check_for_updates cfg st inp).new_events,
       p.2.created_at > st.last_check) ∧
    (check_for_updates cfg st inp).state.last_check = inp.now :=
  ⟨(check_for_updates_spec cfg st inp).2, rfl⟩

theorem c2_witness :
    (("comment_o/r_1_1", event1) ∈ (check_for_updates cfgNormal st0 inp1).new_events) ∧
    event1.created_at > st0.last_check ∧
    (check_for_updates cfgNormal st0 inp1).state.last_check = 100 :=
  ⟨by decide,
   (c2_cutoff_correctness cfgNormal st0 inp1).1 ("comment_o/r_1_1", event1) (by decide),
   (c2_cutoff_correctness cfgNormal st0 inp1).2⟩

/-- Claim C3 counterexample: a subject whose reviews fetch fails (after a
successful comments fetch) contributes one event and one new ledger entry —
not the empty per-subject result the claim demands for any retrieval
failure. -/
theorem c3_counterexample :
    (get_pr_comments cfgNormal 0 [] "o/r" 1
        { comments := .ok (some [comment1]), reviews := .error () }).events ≠ [] ∧
    (get_pr_comments cfgNormal 0 [] "o/r" 1
        { comments := .ok (some [comment1]), reviews := .error () }).processed ≠ [] := by
  constructor <;> decide

/-- Claim C3 (amended): a failure of the initial comments fetch yields an
empty per-subject result with the ledger unchanged; a failure of the
later reviews fetch leaves exactly the events and ledger entries already
produced from the comments pass (the same outcome as a payload with no
reviews), a partial — not empty — per-subject result. -/
theorem c3_per_subject_failure (cfg : Config) (cutoff : Int) (processed : Ledger)
    (repo : String) (prn : Nat) (fin : FetchInput)
    (h : fin.comments = .error ()) :
    get_pr_comments cfg cutoff processed repo prn fin =
      { processed := processed, events := [] } ∧
    ∀ copt, get_pr_comments cfg cutoff processed repo prn ⟨copt, .error ()⟩ =
        get_pr_comments cfg cutoff processed repo prn ⟨copt, .ok none⟩ := by
  refine ⟨get_pr_comments_comments_error cfg cutoff processed repo prn fin h, ?_⟩
  intro copt
  unfold get_pr_comments
  cases copt with
  | error u => rfl
  | ok o =>
    cases o with
    | none => rfl
    | some cs =>
      dsimp only

theorem c3_witness :
    (({ comments := .error (), reviews := .ok none } : FetchInput).comments = .error ()) ∧
    get_pr_comments cfgNormal 0 [] "o/r" 1
        { comments := .error (), reviews := .ok none } =
      { processed := [], events := [] } :=
  ⟨rfl, (c3_per_subject_failure cfgNormal 0 [] "o/r" 1
    { comments := .error (), reviews := .ok none } rfl).1⟩

set_option maxRecDepth 4000 in
/-- Claim C4 counterexample: a review with a 101-character body produces an
event whose excerpt is the whole untruncated body, not the first 100
characters plus marker. -/
theorem c4_counterexample :
    processReview cfgNormal 0 "o/r" 1 { processed := [], events := [] }
        { id := some "5", authorLogin := some "alice", submittedAt := some 1,
          body := some (String.mk (List.replicate 101 'a')), state := some "COMMENTED" } =
      .ok { processed := ["review_o/r_1_5"],
            events := [("review_o/r_1_5",
              { pr_number := 1, event_type := "commented", author := "alice",
                created_at := 1, body := String.mk (List.replicate 101 'a') })] } ∧
    String.mk (List.replicate 101 'a') ≠
      (String.mk (List.replicate 101 'a')).take 100 ++ "..." := by
  constructor
  · rfl
  · decide

/-- Claim C4 (amended): truncation applies only to comment-sourced events —
a comment body longer than 100 characters becomes its first 100 characters
plus the marker and a body of at most 100 characters passes unchanged —
while a review-sourced event carries its raw body unchanged whatever its
length, with a missing review body giving the empty excerpt (a missing
comment body is instead a malformed-record failure). -/
theorem c4_excerpt_truncation (cfg : Config) (cutoff : Int) (repo : String) (prn : Nat)
    (acc : Acc) :
    (∀ b : String, (b.length > 100 → commentExcerpt b = b.take 100 ++ "...") ∧
       (b.length ≤ 100 → commentExcerpt b = b)) ∧
    (∀ (c : RawComment) (ca : Int) (cid login b : String),
      c.createdAt = some ca → authorFilter cfg c.authorLogin = .ok true →
      ca > cutoff → c.id = some cid → c.authorLogin = some login → c.body = some b →
      commentEventId repo prn cid ∉ acc.processed →
      processComment cfg cutoff repo prn acc c =
        .ok { processed := commentEventId repo prn cid :: acc.processed,
              events := acc.events ++ [(commentEventId repo prn cid,
                { pr_number := prn, event_type := "comment", author := login,
                  created_at := ca, body := commentExcerpt b })] }) ∧
    (∀ (r : RawReview) (s : String) (sa : Int) (rid login : String),
      r.state = some s → (s = "APPROVED" ∨ s = "CHANGES_REQUESTED" ∨ s = "COMMENTED") →
      r.submittedAt = some sa → authorFilter cfg r.authorLogin = .ok true →
      sa > cutoff → r.id = some rid → r.authorLogin = some login →
      reviewEventId repo prn rid ∉ acc.processed →
      processReview cfg cutoff repo prn acc r =
        .ok { processed := reviewEventId repo prn rid :: acc.processed,
              events := acc.events ++ [(reviewEventId repo prn rid,
                { pr_number := prn,
                  event_type :=
                    if s = "APPROVED" then "approved"
                    else if s = "CHANGES_REQUESTED" then "changes_requested"
                    else "commented",
                  author := login, created_at := sa,
                  body := r.body.getD "" })] }) ∧
    (∀ ob : Option String, ob = none → ob.getD "" = "") := by
  refine ⟨?_, ?_, ?_, ?_⟩
  · intro b
    constructor
    · intro hlong
      unfold commentExcerpt
      rw [if_pos hlong]
    · intro hshort
      unfold commentExcerpt
      rw [if_neg (by omega)]
  · intro c ca cid login b hca haf hcut hid hal hb hmem
    exact processComment_emit cfg cutoff repo prn acc c ca cid login b
      hca haf hcut hid hal hb hmem
  · intro r s sa rid login hst hrec hsa haf hcut hid hal hmem
    exact processReview_emit cfg cutoff repo prn acc r s sa rid login
      hst hrec hsa haf hcut hid hal hmem
  · intro ob hob
    rw [hob]
    rfl

theorem c4_witness :
    ((String.mk (List.replicate 101 'a')).length > 100 ∧
     commentExcerpt (String.mk (List.replicate 101 'a')) =
       (String.mk (List.replicate 101 'a')).take 100 ++ "...") ∧
    ((String.mk (List.replicate 100 'a')).length ≤ 100 ∧
     commentExcerpt (String.mk (List.replicate 100 'a')) =
       String.mk (List.replicate 100 'a')) ∧
    processReview cfgNormal 0 "o/r" 1 { processed := [], events := [] }
        { id := some "6", authorLogin := some "alice", submittedAt := some 1,
          body := none, state := some "APPROVED" } =
      .ok { processed := ["review_o/r_1_6"],
            events := [("review_o/r_1_6",
              { pr_number := 1, event_type := "approved", author := "alice",
                created_at := 1, body := "" })] } :=
  ⟨⟨by decide,
    ((c4_excerpt_truncation cfgNormal 0 "o/r" 1
      { processed := [], events := [] }).1 (String.mk (List.replicate 101 'a'))).1
      (by decide)⟩,
   ⟨by decide,
    ((c4_excerpt_truncation cfgNormal 0 "o/r" 1
      { processed := [], events := [] }).1 (String.mk (List.replicate 100 'a'))).2
      (by decide)⟩,
   (c4_excerpt_truncation cfgNormal 0 "o/r" 1 { processed := [], events := [] }).2.2.1
     { id := some "6", authorLogin := some "alice", submittedAt := some 1,
       body := none, state := some "APPROVED" }
     "APPROVED" 1 "6" "alice" rfl (by decide) rfl rfl (by decide) rfl rfl
     (by decide)⟩

def badComment : RawComment :=
  { id := some "2", authorLogin := some "alice", createdAt := none, body := some "x" }

/-- Claim C5 counterexample: with a malformed record (missing `createdAt`)
first in the batch, the well-formed qualifying record behind it is never
classified — the whole remainder of the batch is dropped, not just the
malformed record.  The same well-formed record alone does produce an event. -/
theorem c5_counterexample :
    (get_pr_comments cfgNormal 0 [] "o/r" 1
        { comments := .ok (some [badComment, comment1]), reviews := .ok none }).events = [] ∧
    (get_pr_comments cfgNormal 0 [] "o/r" 1
        { comments := .ok (some [comment1]), reviews := .ok none }).events ≠ [] := by
  constructor <;> decide

/-- Claim C5 (amended): a malformed record is a classification failure that
aborts the remainder of that subject's batch: the accumulator built from the
records before it is kept unchanged, and the malformed record together with
every record after it contributes nothing. -/
theorem c5_malformed_aborts_batch (cfg : Config) (cutoff : Int) (repo : String)
    (prn : Nat) (acc : Acc) (bad : RawComment) (rest : List RawComment)
    (h : processComment cfg cutoff repo prn acc bad = .error ()) :
    foldAbort (processComment cfg cutoff repo prn) acc (bad :: rest) = (acc, false) := by
  unfold foldAbort
  rw [h]

theorem c5_witness :
    (processComment cfgNormal 0 "o/r" 1 { processed := [], events := [] } badComment =
      .error ()) ∧
    foldAbort (processComment cfgNormal 0 "o/r" 1) { processed := [], events := [] }
        [badComment, comment1] = ({ processed := [], events := [] }, false) :=
  ⟨rfl, c5_malformed_aborts_batch cfgNormal 0 "o/r" 1 { processed := [], events := [] }
    badComment [comment1] rfl⟩

/-- Claim C6 counterexample: with the notifier connection failing at startup
(and the gh CLI check passing), construction does not fail — it returns a
monitor whose device handle is empty, and the process goes on rather than
exiting. -/
theorem c6_counterexample :
    GitHubPRMonitor_init "user" 60 false 0 (.error ()) (.ok ()) =
      .ok { username := "user", poll_interval := 60, test_mode := false,
            state := { processed := [], last_check := -3600, blink1 := false } } := rfl

/-- Claim C6 (amended): notifier unavailability at startup is not fatal: the
connection failure is caught, the monitor is constructed with an absent
device handle (and the watermark one hour before construction time), and
every later flash is silently skipped; only a failing or missing gh CLI
aborts construction. -/
theorem c6_startup_degradation (u : String) (p : Nat) (tm : Bool) (now : Int) :
    GitHubPRMonitor_init u p tm now (.error ()) (.ok ()) =
      .ok { username := u, poll_interval := p, test_mode := tm,
            state := { processed := [], last_check := now - 3600, blink1 := false } } ∧
    (∀ e : PREvent, flash_for_event false e = none) ∧
    (∀ (blinkConn : Except Unit Unit) (msg : String),
       GitHubPRMonitor_init u p tm now blinkConn (.error msg) = .error msg) := by
  refine ⟨rfl, fun e => rfl, fun blinkConn msg => ?_⟩
  cases blinkConn <;> rfl

/-- Claim C7: with `test_mode` off, a comment or review authored by the
monitored username yields no event and leaves the accumulator untouched;
with `test_mode` on, an otherwise-qualifying record by the monitored
username is classified and emitted like anyone else's. -/
theorem c7_self_filter (cfg : Config) (cutoff : Int) (repo : String) (prn : Nat)
    (acc : Acc) :
    (∀ (c : RawComment) (ca : Int), cfg.test_mode = false →
      c.authorLogin = some cfg.username → c.createdAt = some ca →
      processComment cfg cutoff repo prn acc c = .ok acc) ∧
    (∀ (r : RawReview) (s : String) (sa : Int), cfg.test_mode = false →
      r.authorLogin = some cfg.username → r.state = some s → r.submittedAt = some sa →
      processReview cfg cutoff repo prn acc r = .ok acc) ∧
    (∀ (c : RawComment) (ca : Int) (cid b : String), cfg.test_mode = true →
      c.authorLogin = some cfg.username → c.createdAt = some ca → c.id = some cid →
      c.body = some b → ca > cutoff → commentEventId repo prn cid ∉ acc.processed →
      processComment cfg cutoff repo prn acc c =
        .ok { processed := commentEventId repo prn cid :: acc.processed,
              events := acc.events ++ [(commentEventId repo prn cid,
                { pr_number := prn, event_type := "comment", author := cfg.username,
                  created_at := ca, body := commentExcerpt b })] }) ∧
    (∀ (r : RawReview) (s : String) (sa : Int) (rid : String), cfg.test_mode = true →
      r.authorLogin = some cfg.username → r.state = some s →
      (s = "APPROVED" ∨ s = "CHANGES_REQUESTED" ∨ s = "COMMENTED") →
      r.submittedAt = some sa → r.id = some rid → sa > cutoff →
      reviewEventId repo prn rid ∉ acc.processed →
      processReview cfg cutoff repo prn acc r =
        .ok { processed := reviewEventId repo prn rid :: acc.processed,
              events := acc.events ++ [(reviewEventId repo prn rid,
                { pr_number := prn,
                  event_type :=
                    if s = "APPROVED" then "approved"
                    else if s = "CHANGES_REQUESTED" then "changes_requested"
                    else "commented",
                  author := cfg.username, created_at := sa,
                  body := r.body.getD "" })] }) := by
  refine ⟨?_, ?_, ?_, ?_⟩
  · intro c ca htm hal hca
    refine processComment_skip cfg cutoff repo prn acc c ca false hca ?_ (by simp)
    rw [hal]
    exact authorFilter_own cfg htm
  · intro r s sa htm hal hst hsa
    by_cases hrec : s = "APPROVED" ∨ s = "CHANGES_REQUESTED" ∨ s = "COMMENTED"
    · refine processReview_skip cfg cutoff repo prn acc r s sa false hst hrec hsa ?_
        (by simp)
      rw [hal]
      exact authorFilter_own cfg htm
    · exact processReview_skip_state cfg cutoff repo prn acc r s hst hrec
  · intro c ca cid b htm hal hca hid hb hcut hmem
    exact processComment_emit cfg cutoff repo prn acc c ca cid cfg.username b
      hca (authorFilter_test cfg htm c.authorLogin) hcut hid hal hb hmem
  · intro r s sa rid htm hal hst hrec hsa hid hcut hmem
    exact processReview_emit cfg cutoff repo prn acc r s sa rid cfg.username
      hst hrec hsa (authorFilter_test cfg htm r.authorLogin) hcut hid hal hmem

def ownComment : RawComment :=
  { id := some "7", authorLogin := some "bob", createdAt := some 10, body := some "mine" }

def ownReview : RawReview :=
  { id := some "8", authorLogin := some "bob", submittedAt := some 10,
    body := some "rbody", state := some "APPROVED" }

theorem c7_witness :
    (cfgNormal.test_mode = false ∧ ownComment.authorLogin = some cfgNormal.username) ∧
    processComment cfgNormal 0 "o/r" 1 { processed := [], events := [] } ownComment =
      .ok { processed := [], events := [] } ∧
    processReview cfgNormal 0 "o/r" 1 { processed := [], events := [] } ownReview =
      .ok { processed := [], events := [] } ∧
    processComment cfgTest 0 "o/r" 1 { processed := [], events := [] } ownComment =
      .ok { processed := ["comment_o/r_1_7"],
            events := [("comment_o/r_1_7",
              { pr_number := 1, event_type := "comment", author := "bob",
                created_at := 10, body := "mine" })] } ∧
    processReview cfgTest 0 "o/r" 1 { processed := [], events := [] } ownReview =
      .ok { processed := ["review_o/r_1_8"],
            events := [("review_o/r_1_8",
              { pr_number := 1, event_type := "approved", author := "bob",
                created_at := 10, body := "rbody" })] } :=
  ⟨⟨rfl, rfl⟩,
   (c7_self_filter cfgNormal 0 "o/r" 1 { processed := [], events := [] }).1
     ownComment 10 rfl rfl rfl,
   (c7_self_filter cfgNormal 0 "o/r" 1 { processed := [], events := [] }).2.1
     ownReview "APPROVED" 10 rfl rfl rfl rfl,
   (c7_self_filter cfgTest 0 "o/r" 1 { processed := [], events := [] }).2.2.1
     ownComment 10 "7" "mine" rfl rfl rfl rfl rfl (by decide) (by decide),
   (c7_self_filter cfgTest 0 "o/r" 1 { processed := [], events := [] }).2.2.2
     ownReview "APPROVED" 10 "8" rfl rfl rfl (by decide) rfl rfl (by decide)
     (by decide)⟩

/-- Claim C8: a review whose state is outside the three recognized values
never produces an event (whatever the mode — `cfg` is arbitrary), and a
review inside the set classifies as `approved`, `changes_requested` or
`commented` according to its state. -/
theorem c8_review_state_gating (cfg : Config) (cutoff : Int) (repo : String) (prn : Nat)
    (acc : Acc) :
    (∀ (r : RawReview) (s : String), r.state = some s →
      ¬(s = "APPROVED" ∨ s = "CHANGES_REQUESTED" ∨ s = "COMMENTED") →
      processReview cfg cutoff repo prn acc r = .ok acc) ∧
    (∀ (r : RawReview) (sa : Int) (rid login : String),
      r.submittedAt = some sa → authorFilter cfg r.authorLogin = .ok true →
      sa > cutoff → r.id = some rid → r.authorLogin = some login →
      reviewEventId repo prn rid ∉ acc.processed →
      ((r.state = some "APPROVED" →
        processReview cfg cutoff repo prn acc r =
          .ok { processed := reviewEventId repo prn rid :: acc.processed,
                events := acc.events ++ [(reviewEventId repo prn rid,
                  { pr_number := prn, event_type := "approved", author := login,
                    created_at := sa, body := r.body.getD "" })] }) ∧
       (r.state = some "CHANGES_REQUESTED" →
        processReview cfg cutoff repo prn acc r =
          .ok { processed := reviewEventId repo prn rid :: acc.processed,
                events := acc.events ++ [(reviewEventId repo prn rid,
                  { pr_number := prn, event_type := "changes_requested", author := login,
                    created_at := sa, body := r.body.getD "" })] }) ∧
       (r.state = some "COMMENTED" →
        processReview cfg cutoff repo prn acc r =
          .ok { processed := reviewEventId repo prn rid :: acc.processed,
                events := acc.events ++ [(reviewEventId repo prn rid,
                  { pr_number := prn, event_type := "commented", author := login,
                    created_at := sa, body := r.body.getD "" })] }))) := by
  constructor
  · intro r s hst hrec
    exact processReview_skip_state cfg cutoff repo prn acc r s hst hrec
  · intro r sa rid login hsa haf hcut hid hal hmem
    refine ⟨fun hst => ?_, fun hst => ?_, fun hst => ?_⟩
    · exact processReview_emit cfg cutoff repo prn acc r "APPROVED" sa rid login
        hst (by decide) hsa haf hcut hid hal hmem
    · exact processReview_emit cfg cutoff repo prn acc r "CHANGES_REQUESTED" sa rid login
        hst (by decide) hsa haf hcut hid hal hmem
    · exact processReview_emit cfg cutoff repo prn acc r "COMMENTED" sa rid login
        hst (by decide) hsa haf hcut hid hal hmem

def dismissedReview : RawReview :=
  { id := some "9", authorLogin := some "alice", submittedAt := some 10,
    body := some "nope", state := some "DISMISSED" }

def crReview : RawReview :=
  { id := some "3", authorLogin := some "alice", submittedAt := some 10,
    body := some "please", state := some "CHANGES_REQUESTED" }

theorem c8_witness :
    (dismissedReview.state = some "DISMISSED" ∧
     ¬("DISMISSED" = "APPROVED" ∨ "DISMISSED" = "CHANGES_REQUESTED" ∨
        "DISMISSED" = "COMMENTED")) ∧
    processReview cfgNormal 0 "o/r" 1 { processed := [], events := [] } dismissedReview =
      .ok { processed := [], events := [] } ∧
    processReview cfgTest 0 "o/r" 1 { processed := [], events := [] } dismissedReview =
      .ok { processed := [], events := [] } ∧
    processReview cfgNormal 0 "o/r" 1 { processed := [], events := [] } crReview =
      .ok { processed := ["review_o/r_1_3"],
            events := [("review_o/r_1_3",
              { pr_number := 1, event_type := "changes_requested", author := "alice",
                created_at := 10, body := "please" })] } :=
  ⟨⟨rfl, by decide⟩,
   (c8_review_state_gating cfgNormal 0 "o/r" 1 { processed := [], events := [] }).1
     dismissedReview "DISMISSED" rfl (by decide),
   (c8_review_state_gating cfgTest 0 "o/r" 1 { processed := [], events := [] }).1
     dismissedReview "DISMISSED" rfl (by decide),
   ((c8_review_state_gating cfgNormal 0 "o/r" 1 { processed := [], events := [] }).2
     crReview 10 "3" "alice" rfl rfl (by decide) rfl rfl (by decide)).2.1 rfl⟩

/-- Claim C9: a cycle that discovers two subjects, of which the first fails
its comments fetch, still carries the second subject's events (computed
against the unchanged ledger) into `new_events`; and whatever the cycle's
inputs, the watermark is reassigned to the cycle's current time at the end
of the cycle. -/
theorem c9_degradation (cfg : Config) (st : MonState) (inp : CycleInput) (a b : PRRef)
    (hprs : inp.prsFetch = .ok [a, b])
    (hafail : (inp.fetches a).comments = .error ()) :
    (check_for_updates cfg st inp).new_events =
      (get_pr_comments cfg st.last_check st.processed b.repository b.number
        (inp.fetches b)).events ∧
    (check_for_updates cfg st inp).state.last_check = inp.now := by
  constructor
  · have hprs2 : get_user_prs inp = [a, b] := by
      unfold get_user_prs
      rw [hprs]
    have hnew : (check_for_updates cfg st inp).new_events =
        ((get_user_prs inp).foldl (perPRStep cfg st.last_check inp.fetches)
          (st.processed, [])).2 := rfl
    rw [hnew, hprs2, List.foldl_cons, List.foldl_cons, List.foldl_nil]
    have hstepa : perPRStep cfg st.last_check inp.fetches (st.processed, []) a =
        (st.processed, []) := by
      unfold perPRStep
      rw [get_pr_comments_comments_error cfg st.last_check
        (st.processed, ([] : List (String × PREvent))).1 a.repository a.number
        (inp.fetches a) hafail]
      rfl
    rw [hstepa]
    unfold perPRStep
    simp
  · rfl

def fetchMixed : PRRef → FetchInput := fun pr =>
  if pr.number = 1 then { comments := .error (), reviews := .ok none }
  else { comments := .ok (some [comment1]), reviews := .ok none }

def inp2 : CycleInput :=
  { prsFetch := .ok [prA, prB], fetches := fetchMixed,
    flashFails := fun _ => false, now := 100 }

theorem c9_witness :
    (inp2.prsFetch = .ok [prA, prB] ∧ (inp2.fetches prA).comments = .error ()) ∧
    (check_for_updates cfgNormal st0 inp2).new_events =
      (get_pr_comments cfgNormal st0.last_check st0.processed prB.repository prB.number
        (inp2.fetches prB)).events ∧
    (check_for_updates cfgNormal st0 inp2).state.last_check = 100 :=
  ⟨⟨rfl, rfl⟩,
   (c9_degradation cfgNormal st0 inp2 prA prB rfl rfl).1,
   (c9_degradation cfgNormal st0 inp2 prA prB rfl rfl).2⟩

/-- Claim C10: `test_mode` bypasses only the author filter: a record by the
monitored user still yields nothing when its timestamp is at or before the
watermark in effect, or when its identity is already in the dedup ledger —
the cutoff and at-most-once checks run identically in test mode. -/
theorem c10_test_mode_scope (cfg : Config) (cutoff : Int) (repo : String) (prn : Nat)
    (acc : Acc) :
    (∀ (c : RawComment) (ca : Int), cfg.test_mode = true →
      c.authorLogin = some cfg.username → c.createdAt = some ca → ca ≤ cutoff →
      processComment cfg cutoff repo prn acc c = .ok acc) ∧
    (∀ (c : RawComment) (ca : Int) (cid : String), cfg.test_mode = true →
      c.authorLogin = some cfg.username → c.createdAt = some ca → ca > cutoff →
      c.id = some cid → commentEventId repo prn cid ∈ acc.processed →
      processComment cfg cutoff repo prn acc c = .ok acc) ∧
    (∀ (r : RawReview) (s : String) (sa : Int), cfg.test_mode = true →
      r.authorLogin = some cfg.username → r.state = some s →
      (s = "APPROVED" ∨ s = "CHANGES_REQUESTED" ∨ s = "COMMENTED") →
      r.submittedAt = some sa → sa ≤ cutoff →
      processReview cfg cutoff repo prn acc r = .ok acc) ∧
    (∀ (r : RawReview) (s : String) (sa : Int) (rid : String), cfg.test_mode = true →
      r.authorLogin = some cfg.username → r.state = some s →
      (s = "APPROVED" ∨ s = "CHANGES_REQUESTED" ∨ s = "COMMENTED") →
      r.submittedAt = some sa → sa > cutoff → r.id = some rid →
      reviewEventId repo prn rid ∈ acc.processed →
      processReview cfg cutoff repo prn acc r = .ok acc) := by
  refine ⟨?_, ?_, ?_, ?_⟩
  · intro c ca htm _hal hca hle
    exact processComment_skip cfg cutoff repo prn acc c ca true hca
      (authorFilter_test cfg htm c.authorLogin) (fun hg => absurd hg.1 (not_lt.2 hle))
  · intro c ca cid htm _hal hca hcut hid hmem
    exact processComment_seen cfg cutoff repo prn acc c ca cid hca
      (authorFilter_test cfg htm c.authorLogin) hcut hid hmem
  · intro r s sa htm _hal hst hrec hsa hle
    exact processReview_skip cfg cutoff repo prn acc r s sa true hst hrec hsa
      (authorFilter_test cfg htm r.authorLogin) (fun hg => absurd hg.1 (not_lt.2 hle))
  · intro r s sa rid htm _hal hst hrec hsa hcut hid hmem
    exact processReview_seen cfg cutoff repo prn acc r s sa rid hst hrec hsa
      (authorFilter_test cfg htm r.authorLogin) hcut hid hmem

theorem c10_witness :
    (cfgTest.test_mode = true ∧ ownComment.createdAt = some 10 ∧ (10 : Int) ≤ 20) ∧
    processComment cfgTest 20 "o/r" 1 { processed := [], events := [] } ownComment =
      .ok { processed := [], events := [] } ∧
    processComment cfgTest 0 "o/r" 1 { processed := ["comment_o/r_1_7"], events := [] }
        ownComment = .ok { processed := ["comment_o/r_1_7"], events := [] } ∧
    processReview cfgTest 20 "o/r" 1 { processed := [], events := [] } ownReview =
      .ok { processed := [], events := [] } ∧
    processReview cfgTest 0 "o/r" 1 { processed := ["review_o/r_1_8"], events := [] }
        ownReview = .ok { processed := ["review_o/r_1_8"], events := [] } :=
  ⟨⟨rfl, rfl, by decide⟩,
   (c10_test_mode_scope cfgTest 20 "o/r" 1 { processed := [], events := [] }).1
     ownComment 10 rfl rfl rfl (by decide),
   (c10_test_mode_scope cfgTest 0 "o/r" 1
     { processed := ["comment_o/r_1_7"], events := [] }).2.1
     ownComment 10 "7" rfl rfl rfl (by decide) rfl (by decide),
   (c10_test_mode_scope cfgTest 20 "o/r" 1 { processed := [], events := [] }).2.2.1
     ownReview "APPROVED" 10 rfl rfl rfl (by decide) rfl (by decide),
   (c10_test_mode_scope cfgTest 0 "o/r" 1
     { processed := ["review_o/r_1_8"], events := [] }).2.2.2
     ownReview "APPROVED" 10 "8" rfl rfl rfl (by decide) rfl (by decide) rfl
     (by decide)⟩

end GithubPRNotifier
